import Mathlib

/-!
Verification development for the `qi` Go client library (QiCard Payment
Gateway).  The definitions below are a shallow embedding of the library's
three components: the timestamp codec (`Time.UnmarshalJSON` /
`Time.MarshalJSON`), the error model (`Error`, `APIError` and its
classification predicates), and the request pipeline (`Client.doRequest`
and the exported payment operations).

Machine integers are modelled as `Nat`/`Int` (all quantities involved are
far from overflow), byte strings as `String`/`List Char`, and the behaviour
of the Go standard library (`time.Parse`, `time.Time.Format`,
`encoding/json`) is embedded by translating the relevant code paths of the
Go runtime that the repository calls into.
-/

namespace Qi

/-! ### Characters and digits -/

/-- Go's `isDigit`: whether a character is an ASCII decimal digit. -/
def isDigitCh (c : Char) : Bool := 48 ≤ c.toNat && c.toNat ≤ 57

/-- Numeric value of an ASCII digit character (`c - '0'`). -/
def dval (c : Char) : Nat := c.toNat - 48

/-- Go's `utod` helper inside `appendInt`: `'0' + byte(u%10)`. -/
def utod (u : Nat) : Char := Nat.digitChar (u % 10)

/-- Value of a run of ASCII digits, most significant first (Go's `atoi`
loop `n = n*10 + digit`). -/
def digitsToNat (ds : List Char) : Nat := ds.foldl (fun a c => a * 10 + dval c) 0

/-! ### The Go `time.Time` value as relevant to this library

Go's `time.Time` stores an absolute instant plus a location; parsing
produces a time whose civil (broken-down) fields are exactly the parsed
fields and whose location is a fixed zone with the parsed offset, and
formatting prints the civil fields in the time's location.  We therefore
represent a time by its civil fields, sub-second nanoseconds and zone
offset (seconds east of UTC); the absolute instant is recovered by
`toAbsSec`. -/

structure GoTime where
  year : Int
  month : Nat
  day : Nat
  hour : Nat
  minute : Nat
  second : Nat
  nsec : Nat
  offset : Int
  deriving DecidableEq, Repr

/-- The zero `time.Time`: January 1, year 1, 00:00:00 UTC. -/
def zeroGoTime : GoTime := ⟨1, 1, 1, 0, 0, 0, 0, 0⟩

/-- Go's leap-year rule (`isLeap` in `time`). -/
def isLeap (y : Int) : Bool := y % 4 == 0 && (y % 100 != 0 || y % 400 == 0)

/-- Go's `daysIn(m, year)`: number of days in a month. -/
def daysIn (m : Nat) (y : Int) : Nat :=
  if m = 2 then (if isLeap y then 29 else 28)
  else if m = 4 ∨ m = 6 ∨ m = 9 ∨ m = 11 then 30
  else 31

/-- Days from civil date to 1970-01-01 (the standard era-based civil
calendar algorithm, matching Go's internal `absDate` arithmetic). -/
def daysFromCivil (y : Int) (m d : Nat) : Int :=
  let y' : Int := if m ≤ 2 then y - 1 else y
  let era : Int := (if 0 ≤ y' then y' else y' - 399).tdiv 400
  let yoe : Int := y' - era * 400
  let mp : Int := if 2 < m then (m : Int) - 3 else (m : Int) + 9
  let doy : Int := (153 * mp + 2).tdiv 5 + (d : Int) - 1
  let doe : Int := yoe * 365 + yoe.tdiv 4 - yoe.tdiv 100 + doy
  era * 146097 + doe - 719468

/-- Absolute instant (seconds since the Unix epoch) denoted by a
`GoTime`: its civil fields interpreted in its zone offset. -/
def GoTime.toAbsSec (t : GoTime) : Int :=
  daysFromCivil t.year t.month t.day * 86400
    + (t.hour : Int) * 3600 + (t.minute : Int) * 60 + (t.second : Int) - t.offset

/-- Two times denote the same instant (Go's `Time.Equal`, which the
round-trip property compares by). -/
def instantEq (a b : GoTime) : Prop := a.toAbsSec = b.toAbsSec ∧ a.nsec = b.nsec

instance : DecidablePred fun p : GoTime × GoTime => instantEq p.1 p.2 := by
  intro p; unfold instantEq; infer_instance

instance (a b : GoTime) : Decidable (instantEq a b) := by
  unfold instantEq; infer_instance

/-- Go's `Time.IsZero`: the time denotes the zero instant (January 1,
year 1, 00:00:00 UTC) with zero nanoseconds. -/
def GoTime.isZero (t : GoTime) : Bool :=
  t.toAbsSec == zeroGoTime.toAbsSec && t.nsec == 0

/-! ### Fractional seconds (Go's `parseNanoseconds`)

Go truncates the digit run to at most 9 significant digits (10 bytes
including the separator) and scales the remainder up to nanoseconds. -/

/-- Nanoseconds denoted by the digit run of a fractional-second field. -/
def nsecOfFrac (ds : List Char) : Nat :=
  let ds9 := ds.take 9
  digitsToNat ds9 * 10 ^ (9 - ds9.length)

/-! ### `time.Parse` — the strict RFC3339 fast path

Go ≥ 1.20 `time.Parse` first tries `parseRFC3339` when the layout is
`time.RFC3339`, falling back to the generic layout interpreter.  The
strict parser requires the exact shape
`YYYY-MM-DDThh:mm:ss[.digits](Z|z|±hh:mm)` with all fields range-checked
at parse time. -/

/-- Go `parseRFC3339`'s `parseUint` on a two-digit field with bounds. -/
def parseUint2 (a b : Char) (lo hi : Nat) : Option Nat :=
  if isDigitCh a && isDigitCh b then
    if lo ≤ dval a * 10 + dval b && dval a * 10 + dval b ≤ hi then
      some (dval a * 10 + dval b)
    else none
  else none

/-- Go `parseRFC3339`'s `parseUint` on the four-digit year field. -/
def parseUint4 (a b c d : Char) : Option Nat :=
  if isDigitCh a && isDigitCh b && isDigitCh c && isDigitCh d then
    some (((dval a * 10 + dval b) * 10 + dval c) * 10 + dval d)
  else none

/-- Strict fractional-second scan of `parseRFC3339`: an optional `'.'`
followed by at least one digit. Returns nanoseconds and the rest. -/
def scanFracDot (cs : List Char) : Nat × List Char :=
  match cs with
  | '.' :: c :: rest =>
    if isDigitCh c then
      let run := (c :: rest).takeWhile isDigitCh
      (nsecOfFrac run, (c :: rest).dropWhile isDigitCh)
    else (0, cs)
  | _ => (0, cs)

/-- Strict zone scan of `parseRFC3339`: `Z`/`z`, or exactly `±hh:mm`
with `hh ≤ 23`, `mm ≤ 59`. Returns the offset in seconds. -/
def scanZoneStrict (cs : List Char) : Option Int :=
  match cs with
  | ['Z'] => some 0
  | ['z'] => some 0
  | [sgn, a, b, ':', c, d] =>
    match parseUint2 a b 0 23, parseUint2 c d 0 59 with
    | some hh, some mm =>
      if sgn = '+' then some ((hh * 60 + mm) * 60 : Int)
      else if sgn = '-' then some (-((hh * 60 + mm) * 60 : Int))
      else none
    | _, _ => none
  | _ => none

/-- Go's `parseRFC3339` (the strict fast path of `time.Parse` for the
`time.RFC3339` layout). -/
def parseRFC3339strict (cs : List Char) : Option GoTime :=
  match cs with
  | y1 :: y2 :: y3 :: y4 :: '-' :: mo1 :: mo2 :: '-' :: d1 :: d2 :: 'T' ::
      h1 :: h2 :: ':' :: mi1 :: mi2 :: ':' :: s1 :: s2 :: rest =>
    match parseUint4 y1 y2 y3 y4, parseUint2 mo1 mo2 1 12, parseUint2 d1 d2 1 31,
        parseUint2 h1 h2 0 23, parseUint2 mi1 mi2 0 59, parseUint2 s1 s2 0 59 with
    | some year, some month, some day, some hour, some minute, some second =>
      if day ≤ daysIn month (year : Int) then
        let (ns, rest') := scanFracDot rest
        match scanZoneStrict rest' with
        | some off => some ⟨(year : Int), month, day, hour, minute, second, ns, off⟩
        | none => none
      else none
    | _, _, _, _, _, _ => none
  | _ => none

/-! ### `time.Parse` — the generic layout interpreter

When the strict fast path fails, `time.Parse` runs the generic
interpreter over the layout.  Unrolled over the fixed layout
`"2006-01-02T15:04:05Z07:00"` this accepts the same shape but with a
`'.'`- or `','`-separated fractional second (the special case after
`stdSecond`), an uppercase-only `Z`, and a `±hh:mm` zone whose hour and
minute fields are any two-digit numbers; the date and clock fields are
range-checked after scanning. -/

/-- Generic-parse fractional-second special case after the seconds
field: `'.'` or `','` followed by at least one digit. -/
def scanFracGeneric (cs : List Char) : Nat × List Char :=
  match cs with
  | sep :: c :: rest =>
    if (sep = '.' ∨ sep = ',') ∧ isDigitCh c then
      let run := (c :: rest).takeWhile isDigitCh
      (nsecOfFrac run, (c :: rest).dropWhile isDigitCh)
    else (0, cs)
  | _ => (0, cs)

/-- Generic zone scan for the layout element `Z07:00`
(`stdISO8601ColonTZ`): `Z`, or `±hh:mm` with unbounded two-digit hour
and minute fields. -/
def scanZoneGeneric (cs : List Char) : Option Int :=
  match cs with
  | ['Z'] => some 0
  | [sgn, a, b, ':', c, d] =>
    match parseUint2 a b 0 99, parseUint2 c d 0 99 with
    | some hh, some mm =>
      if sgn = '+' then some ((hh * 60 + mm) * 60 : Int)
      else if sgn = '-' then some (-((hh * 60 + mm) * 60 : Int))
      else none
    | _, _ => none
  | _ => none

/-- Final range validation of Go's generic `parse` (month, day against
`daysIn`, hour, minute, second). -/
def validDateClock (year : Int) (month day hour minute second : Nat) : Bool :=
  1 ≤ month && month ≤ 12 && 1 ≤ day && day ≤ daysIn month year &&
    hour < 24 && minute < 60 && second < 60

/-- Go's generic `parse` specialised to the `time.RFC3339` layout. -/
def parseRFC3339generic (cs : List Char) : Option GoTime :=
  match cs with
  | y1 :: y2 :: y3 :: y4 :: '-' :: mo1 :: mo2 :: '-' :: d1 :: d2 :: 'T' ::
      h1 :: h2 :: ':' :: mi1 :: mi2 :: ':' :: s1 :: s2 :: rest =>
    match parseUint4 y1 y2 y3 y4, parseUint2 mo1 mo2 0 99, parseUint2 d1 d2 0 99,
        parseUint2 h1 h2 0 99, parseUint2 mi1 mi2 0 99, parseUint2 s1 s2 0 99 with
    | some year, some month, some day, some hour, some minute, some second =>
      let (ns, rest') := scanFracGeneric rest
      match scanZoneGeneric rest' with
      | some off =>
        if validDateClock (year : Int) month day hour minute second then
          some ⟨(year : Int), month, day, hour, minute, second, ns, off⟩
        else none
      | none => none
    | _, _, _, _, _, _ => none
  | _ => none

/-- `time.Parse(time.RFC3339, s)`: the strict fast path, then the
generic interpreter. -/
def parseRFC3339go (cs : List Char) : Option GoTime :=
  (parseRFC3339strict cs).orElse fun _ => parseRFC3339generic cs

/-- Go's generic `parse` specialised to the fallback layout
`"2006-01-02T15:04:05"` used by `Time.UnmarshalJSON`: same date and
clock fields, optional fractional second, no zone element (the result
is interpreted in the default location, UTC), and the input must be
fully consumed. -/
def parseNaive (cs : List Char) : Option GoTime :=
  match cs with
  | y1 :: y2 :: y3 :: y4 :: '-' :: mo1 :: mo2 :: '-' :: d1 :: d2 :: 'T' ::
      h1 :: h2 :: ':' :: mi1 :: mi2 :: ':' :: s1 :: s2 :: rest =>
    match parseUint4 y1 y2 y3 y4, parseUint2 mo1 mo2 0 99, parseUint2 d1 d2 0 99,
        parseUint2 h1 h2 0 99, parseUint2 mi1 mi2 0 99, parseUint2 s1 s2 0 99 with
    | some year, some month, some day, some hour, some minute, some second =>
      let (ns, rest') := scanFracGeneric rest
      if rest' = [] then
        if validDateClock (year : Int) month day hour minute second then
          some ⟨(year : Int), month, day, hour, minute, second, ns, 0⟩
        else none
      else none
    | _, _, _, _, _, _ => none
  | _ => none

/-! ### `time.Time.Format(time.RFC3339)` and the codec entry points -/

/-- Go's `appendInt(b, v, width)`: optional sign, then the decimal
digits zero-padded to `width` (with the fast paths for widths 2 and 4
used by the clock and date fields). -/
def appendIntPad (v : Int) (w : Nat) : List Char :=
  let sign : List Char := if v < 0 then ['-'] else []
  let u := v.natAbs
  if w = 2 ∧ u < 100 then sign ++ [utod (u / 10), utod u]
  else if w = 4 ∧ u < 10000 then
    sign ++ [utod (u / 1000), utod (u / 100), utod (u / 10), utod u]
  else
    let ds := if u = 0 then ['0'] else Nat.toDigits 10 u
    sign ++ List.replicate (w - ds.length) '0' ++ ds

/-- The zone part of `Format(time.RFC3339)` (layout element `Z07:00`):
`Z` when the offset is zero, otherwise `±hh:mm` from the offset
truncated to minutes. -/
def formatZone (offset : Int) : List Char :=
  if offset = 0 then ['Z']
  else
    let zone := offset.tdiv 60
    let sgn : Char := if zone < 0 then '-' else '+'
    let z := zone.natAbs
    sgn :: appendIntPad (z / 60 : Nat) 2 ++ ':' :: appendIntPad (z % 60 : Nat) 2

/-- `t.Format(time.RFC3339)`: the civil fields of `t` in its zone,
without fractional seconds. -/
def formatRFC3339 (t : GoTime) : List Char :=
  appendIntPad t.year 4 ++ '-' :: appendIntPad t.month 2 ++ '-' :: appendIntPad t.day 2 ++
    'T' :: appendIntPad t.hour 2 ++ ':' :: appendIntPad t.minute 2 ++
    ':' :: appendIntPad t.second 2 ++ formatZone t.offset

/-- `Time.MarshalJSON`: JSON `null` for the zero time, otherwise the
JSON string of the RFC3339 rendering (which contains no characters that
JSON string encoding would escape). -/
def goTimeMarshalJSON (t : GoTime) : String :=
  if t.isZero then "null" else String.mk ('"' :: formatRFC3339 t ++ ['"'])

/-- `strings.Trim(s, "\"")`: remove all leading and trailing `'"'`. -/
def trimQuotes (cs : List Char) : List Char :=
  ((cs.dropWhile (· == '"')).reverse.dropWhile (· == '"')).reverse

/-- Go's `*time.ParseError` as far as `Time.UnmarshalJSON` exposes it:
the layout that failed and the value that was being parsed. -/
structure TimeParseError where
  layout : String
  value : String
  deriving DecidableEq, Repr

instance {ε α : Type} [DecidableEq ε] [DecidableEq α] : DecidableEq (Except ε α) := fun a b =>
  match a, b with
  | .ok x, .ok y => if h : x = y then .isTrue (by rw [h]) else .isFalse (by simp [h])
  | .error x, .error y => if h : x = y then .isTrue (by rw [h]) else .isFalse (by simp [h])
  | .ok _, .error _ => .isFalse (by simp)
  | .error _, .ok _ => .isFalse (by simp)

/-- The fallback layout string of `Time.UnmarshalJSON`. -/
def naiveLayout : String := "2006-01-02T15:04:05"

/-- `Time.UnmarshalJSON` on a fresh (zero) receiver: trim quotes, treat
`null`/empty as the zero time, try RFC3339, then the naive fallback
layout, and propagate the fallback's parse error (which carries the
trimmed text) when both fail. -/
def unmarshalTimeJSON (data : String) : Except TimeParseError GoTime :=
  let s := trimQuotes data.toList
  if s = ['n', 'u', 'l', 'l'] ∨ s = [] then .ok zeroGoTime
  else
    match parseRFC3339go s with
    | some t => .ok t
    | none =>
      match parseNaive s with
      | some t => .ok t
      | none => .error ⟨naiveLayout, String.mk s⟩

/-! ### `encoding/json` as used for the error envelope

`Client.doRequest` calls `json.Unmarshal(respBody, &apiErr)` with
`apiErr : Error`.  We embed a JSON value grammar and parser, and the
decoder semantics of `encoding/json` for this struct type: the top
level must be an object (or `null`, a no-op); object keys are matched
against the field tags case-insensitively (ASCII, approximating Go's
`EqualFold`), later duplicates overwriting earlier ones; unknown keys
are skipped; `null` member values are no-ops; a number decodes into an
`int`-typed field only when its literal is an optionally signed run of
digits; any other shape mismatch is a decode error. -/

/-- JSON values.  Number literals keep their raw text, since decoding
into an integer field inspects the literal (fractions and exponents are
rejected by `strconv.ParseInt`). -/
inductive Json where
  | null : Json
  | bool (b : Bool) : Json
  | num (lit : List Char) : Json
  | str (s : String) : Json
  | arr (elems : List Json) : Json
  | obj (members : List (String × Json)) : Json

/-- JSON whitespace. -/
def isJsonWs (c : Char) : Bool := c = ' ' ∨ c = '\t' ∨ c = '\n' ∨ c = '\r'

/-- Hex digit value, if any. -/
def hexVal (c : Char) : Option Nat :=
  if 48 ≤ c.toNat ∧ c.toNat ≤ 57 then some (c.toNat - 48)
  else if 97 ≤ c.toNat ∧ c.toNat ≤ 102 then some (c.toNat - 87)
  else if 65 ≤ c.toNat ∧ c.toNat ≤ 70 then some (c.toNat - 55)
  else none

/-- Scan a JSON string body after the opening quote; returns the
decoded characters and the input after the closing quote.  Unescaped
control characters below `0x20` are rejected; `\u` escapes decode to
the code unit (surrogate-pair recombination is not modelled, as no
claim depends on it). -/
def pString : List Char → Option (List Char × List Char)
  | [] => none
  | '"' :: rest => some ([], rest)
  | '\\' :: e :: rest =>
    match e with
    | '"' => (pString rest).map fun (s, r) => ('"' :: s, r)
    | '\\' => (pString rest).map fun (s, r) => ('\\' :: s, r)
    | '/' => (pString rest).map fun (s, r) => ('/' :: s, r)
    | 'b' => (pString rest).map fun (s, r) => ('\x08' :: s, r)
    | 'f' => (pString rest).map fun (s, r) => ('\x0c' :: s, r)
    | 'n' => (pString rest).map fun (s, r) => ('\n' :: s, r)
    | 'r' => (pString rest).map fun (s, r) => ('\r' :: s, r)
    | 't' => (pString rest).map fun (s, r) => ('\t' :: s, r)
    | 'u' =>
      match rest with
      | a :: b :: c :: d :: rest2 =>
        match hexVal a, hexVal b, hexVal c, hexVal d with
        | some ha, some hb, some hc, some hd =>
          let n := ((ha * 16 + hb) * 16 + hc) * 16 + hd
          let ch := if n.isValidChar then Char.ofNat n else '\ufffd'
          (pString rest2).map fun (s, r) => (ch :: s, r)
        | _, _, _, _ => none
      | _ => none
    | _ => none
  | c :: rest =>
    if c.toNat < 32 then none
    else (pString rest).map fun (s, r) => (c :: s, r)

/-- Scan the fractional part of a JSON number literal: a `'.'` must be
followed by at least one digit. -/
def pFrac : List Char → Option (List Char × List Char)
  | '.' :: r =>
    let ds := r.takeWhile isDigitCh
    if ds = [] then none else some ('.' :: ds, r.dropWhile isDigitCh)
  | cs => some ([], cs)

/-- Scan the exponent part of a JSON number literal. -/
def pExp : List Char → Option (List Char × List Char)
  | e :: r =>
    if e = 'e' ∨ e = 'E' then
      let (pre, r1) := match r with
        | s :: r2 => if s = '+' ∨ s = '-' then ([e, s], r2) else ([e], s :: r2)
        | [] => ([e], [])
      let ds := r1.takeWhile isDigitCh
      if ds = [] then none else some (pre ++ ds, r1.dropWhile isDigitCh)
    else some ([], e :: r)
  | [] => some ([], [])

/-- Scan a JSON number literal
(`-?(0|[1-9][0-9]*)(\.[0-9]+)?([eE][+-]?[0-9]+)?`), returning the
literal text and the rest of the input. -/
def pNumber (cs : List Char) : Option (List Char × List Char) :=
  let (sign, cs1) : List Char × List Char := match cs with
    | '-' :: r => (['-'], r)
    | _ => ([], cs)
  match cs1 with
  | [] => none
  | c :: _ =>
    if ¬ isDigitCh c then none
    else
      let intPart := cs1.takeWhile isDigitCh
      let cs2 := cs1.dropWhile isDigitCh
      if c = '0' ∧ intPart.length ≠ 1 then none
      else
        match pFrac cs2 with
        | none => none
        | some (fracPart, cs3) =>
          match pExp cs3 with
          | none => none
          | some (expPart, cs4) => some (sign ++ intPart ++ fracPart ++ expPart, cs4)

mutual

/-- Recursive-descent JSON value parser with a fuel bound (every
recursive call consumes at least one input character, so fuel
`length + 1` suffices). Returns the value and the unconsumed input. -/
def pJson : Nat → List Char → Option (Json × List Char)
  | 0, _ => none
  | fuel + 1, cs =>
    match cs.dropWhile isJsonWs with
    | 'n' :: 'u' :: 'l' :: 'l' :: rest => some (.null, rest)
    | 't' :: 'r' :: 'u' :: 'e' :: rest => some (.bool true, rest)
    | 'f' :: 'a' :: 'l' :: 's' :: 'e' :: rest => some (.bool false, rest)
    | '"' :: rest => (pString rest).map fun (s, r) => (.str (String.mk s), r)
    | '{' :: rest => pMembers fuel rest true []
    | '[' :: rest => pElems fuel rest true []
    | cs2 => (pNumber cs2).map fun (lit, r) => (.num lit, r)

/-- Parse the members of a JSON object after `{` (or after a `,`, when
`first` is false), accumulating members in order. -/
def pMembers : Nat → List Char → Bool → List (String × Json) → Option (Json × List Char)
  | 0, _, _, _ => none
  | fuel + 1, cs, first, acc =>
    match cs.dropWhile isJsonWs with
    | '}' :: rest => if first then some (.obj acc, rest) else none
    | '"' :: rest =>
      match pString rest with
      | none => none
      | some (k, r1) =>
        match r1.dropWhile isJsonWs with
        | ':' :: r2 =>
          match pJson fuel r2 with
          | none => none
          | some (v, r3) =>
            match r3.dropWhile isJsonWs with
            | ',' :: r4 => pMembers fuel r4 false (acc ++ [(String.mk k, v)])
            | '}' :: r4 => some (.obj (acc ++ [(String.mk k, v)]), r4)
            | _ => none
        | _ => none
    | _ => none

/-- Parse the elements of a JSON array after `[` (or after a `,`). -/
def pElems : Nat → List Char → Bool → List Json → Option (Json × List Char)
  | 0, _, _, _ => none
  | fuel + 1, cs, first, acc =>
    match cs.dropWhile isJsonWs with
    | ']' :: rest => if first then some (.arr acc, rest) else none
    | cs2 =>
      match pJson fuel cs2 with
      | none => none
      | some (v, r1) =>
        match r1.dropWhile isJsonWs with
        | ',' :: r2 => pElems fuel r2 false (acc ++ [v])
        | ']' :: r2 => some (.arr (acc ++ [v]), r2)
        | _ => none

end

/-- Parse a complete JSON document: one value with only whitespace
around it. -/
def parseJson (s : String) : Option Json :=
  match pJson (s.length + 1) s.toList with
  | some (v, rest) => if rest.dropWhile isJsonWs = [] then some v else none
  | none => none

/-! ### The error model (`errors.go`) -/

/-- `ErrorCode` is an `int` in Go. -/
abbrev ErrorCode := Int

/-- `ErrorMessage` is a `string` in Go. -/
abbrev ErrorMessage := String

def ErrorCodeOrderAlreadyExists : ErrorCode := 1

def ErrorCodeOrderNotFound : ErrorCode := 2

def ErrorCodeOrderAlreadyCancelled : ErrorCode := 3

def ErrorCodeNoCompatibleServicesFound : ErrorCode := 4

def ErrorCodeCanNotProcessRequest : ErrorCode := 5

def ErrorCodeRequisitesNotFound : ErrorCode := 6

def ErrorCodeRequisitesAlreadyExists : ErrorCode := 7

def ErrorCodeCanNotCreateNewRequisites : ErrorCode := 8

def ErrorCodeTerminalNotFoundException : ErrorCode := 9

def ErrorCodePaymentAlreadyExists : ErrorCode := 10

def ErrorCodeMaxNumberOfPaymentsForOrderExceeded : ErrorCode := 11

def ErrorCodePaymentNotFound : ErrorCode := 12

def ErrorCodeUnknownStrategy : ErrorCode := 13

def ErrorCodeProcessingImpossible : ErrorCode := 14

def ErrorCodeCanNotCancelPayment : ErrorCode := 15

def ErrorCodeCanNotConfirmPayment : ErrorCode := 16

def ErrorCodeCanNotFinishAuthentication : ErrorCode := 17

def ErrorCodeRefundsNotAllowed : ErrorCode := 18

def ErrorCodePaymentParamsNotFound : ErrorCode := 19

def ErrorCodeRefundError : ErrorCode := 20

def ErrorCodeValidationError : ErrorCode := 21

def ErrorCodeIncorrectPaymentState : ErrorCode := 22

def ErrorCodeInternalSystemError : ErrorCode := 23

def ErrorCodeExternalSystemError : ErrorCode := 24

def ErrorCodeInvalidPaymentFormDomain : ErrorCode := 26

def ErrorCodeBadCredentials : ErrorCode := 27

def ErrorCodeLimitViolation : ErrorCode := 28

def ErrorCodeTransferNotFound : ErrorCode := 29

def ErrorCodeIncorrectTransferState : ErrorCode := 30

def ErrorCodeTokenNotFound : ErrorCode := 31

def ErrorCodeTokenProcessNotAllowed : ErrorCode := 32

def ErrorCodeCanNotCancelTransfer : ErrorCode := 33

def ErrorCodeTransferAlreadyExists : ErrorCode := 34

def ErrorCodeInvalidTokenType : ErrorCode := 35

/-- `ErrorDetails` contains the error code and message
(JSON tags `"code"` and `"message"`). -/
structure ErrorDetails where
  code : ErrorCode
  message : ErrorMessage
  deriving DecidableEq, Repr

/-- `Error` represents an API error response
(JSON tag `"error"` on its single field). -/
structure GoError where
  error : ErrorDetails
  deriving DecidableEq, Repr

/-- `APIError` represents an error returned by the API; `Err` is a
possibly-nil pointer to a parsed envelope. -/
structure APIError where
  StatusCode : Nat
  Message : String
  Err : Option GoError
  deriving DecidableEq, Repr

/-- `APIError.IsNotFound`. -/
def APIError.IsNotFound (e : APIError) : Bool :=
  match e.Err with
  | some err =>
    err.error.code == ErrorCodePaymentNotFound ||
      err.error.code == ErrorCodeOrderNotFound ||
      err.error.code == ErrorCodeTransferNotFound ||
      err.error.code == ErrorCodeTokenNotFound
  | none => e.StatusCode == 404

/-- `APIError.IsValidationError`. -/
def APIError.IsValidationError (e : APIError) : Bool :=
  match e.Err with
  | some err => err.error.code == ErrorCodeValidationError
  | none => e.StatusCode == 400

/-- `APIError.IsAuthenticationError`. -/
def APIError.IsAuthenticationError (e : APIError) : Bool :=
  match e.Err with
  | some err => err.error.code == ErrorCodeBadCredentials
  | none => e.StatusCode == 401

/-! ### `json.Unmarshal` into `Error` -/

/-- ASCII-case-insensitive key comparison (modelling Go's field-name
matching via `strings.EqualFold`; the tags here are ASCII). -/
def eqFold (a b : List Char) : Bool :=
  match a, b with
  | [], [] => true
  | x :: xs, y :: ys =>
    (x == y || (x.isAlpha && y.isAlpha && x.toLower == y.toLower)) && eqFold xs ys
  | _, _ => false

/-- `strconv.ParseInt` as used when decoding a JSON number literal into
an `int` field: an optionally signed run of digits (fractions and
exponents make the decode fail). -/
def intOfLit (lit : List Char) : Option Int :=
  match lit with
  | '-' :: ds => if ds ≠ [] ∧ ds.all isDigitCh then some (-(digitsToNat ds : Int)) else none
  | ds => if ds ≠ [] ∧ ds.all isDigitCh then some (digitsToNat ds : Int) else none

/-- Decode a JSON value into an existing `ErrorDetails` value
(`encoding/json` semantics: `null` is a no-op, an object assigns the
`code`/`message` members, any other shape is a decode error). -/
def decodeErrorDetailsInto (cur : ErrorDetails) (v : Json) : Option ErrorDetails :=
  match v with
  | .null => some cur
  | .obj members =>
    members.foldlM (fun (st : ErrorDetails) kv =>
      if eqFold kv.1.toList "code".toList then
        match kv.2 with
        | .null => some st
        | .num lit => (intOfLit lit).map fun n => { st with code := n }
        | _ => none
      else if eqFold kv.1.toList "message".toList then
        match kv.2 with
        | .null => some st
        | .str s => some { st with message := s }
        | _ => none
      else some st) cur
  | _ => none

/-- Decode a JSON value into an existing `Error` value. -/
def decodeGoErrorInto (cur : GoError) (v : Json) : Option GoError :=
  match v with
  | .null => some cur
  | .obj members =>
    members.foldlM (fun (st : GoError) kv =>
      if eqFold kv.1.toList "error".toList then
        (decodeErrorDetailsInto st.error kv.2).map fun d => { st with error := d }
      else some st) cur
  | _ => none

/-- `json.Unmarshal(body, &apiErr)` with `apiErr` a fresh zero `Error`:
`some` on success, `none` when `encoding/json` reports an error. -/
def unmarshalGoError (body : String) : Option GoError :=
  (parseJson body).bind (decodeGoErrorInto ⟨⟨0, ""⟩⟩)

/-! ### The client and the request pipeline (`client.go`) -/

/-- `Client` configuration (the HTTP transport itself is external; the
response it produces is supplied explicitly to `doRequest` below). -/
structure Client where
  baseURL : String
  terminalID : String
  username : String
  password : String
  signature : String
  deriving DecidableEq, Repr

/-- Standard base64 alphabet (RFC 4648, as in Go's
`base64.StdEncoding`). -/
def base64Table : List Char :=
  "ABCDEFGHIJKLMNOPQRSTUVWXYZabcdefghijklmnopqrstuvwxyz0123456789+/".toList

/-- Character of a 6-bit group. -/
def b64Char (n : Nat) : Char := (base64Table.drop (n % 64)).headD 'A'

/-- `base64.StdEncoding.EncodeToString` over a byte list. -/
def base64Encode : List Nat → List Char
  | [] => []
  | [a] =>
    [b64Char (a / 4), b64Char ((a % 4) * 16), '=', '=']
  | [a, b] =>
    [b64Char (a / 4), b64Char ((a % 4) * 16 + b / 16), b64Char ((b % 16) * 4), '=']
  | a :: b :: c :: rest =>
    b64Char (a / 4) :: b64Char ((a % 4) * 16 + b / 16) ::
      b64Char ((b % 16) * 4 + c / 64) :: b64Char (c % 64) :: base64Encode rest

/-- `Request.SetBasicAuth(username, password)`: the `Authorization`
header value `"Basic " + base64(username + ":" + password)`. -/
def basicAuthValue (username password : String) : String :=
  "Basic " ++ String.mk (base64Encode ((String.toUTF8 (username ++ ":" ++ password)).toList.map UInt8.toNat))

/-- The headers set by `doRequest`, in the order the code sets them:
the three fixed headers, then basic auth when both credentials are
non-empty, then the signature header when it is non-empty. -/
def buildHeaders (c : Client) : List (String × String) :=
  [("Content-Type", "application/json"),
   ("Accept", "application/json"),
   ("X-Terminal-Id", c.terminalID)]
  ++ (if c.username ≠ "" ∧ c.password ≠ "" then
        [("Authorization", basicAuthValue c.username c.password)] else [])
  ++ (if c.signature ≠ "" then [("X-Signature", c.signature)] else [])

/-- First value of a header, if present. -/
def headerGet (hs : List (String × String)) (k : String) : Option String :=
  (hs.find? (fun h => h.1 == k)).map (·.2)

/-- The HTTP request `doRequest` constructs, before sending. -/
structure BuiltRequest where
  method : String
  url : String
  path : String
  headers : List (String × String)
  body : Option String
  deriving DecidableEq, Repr

/-- `http.NewRequestWithContext` plus the header block of `doRequest`. -/
def buildRequest (c : Client) (method path : String) (body : Option String) : BuiltRequest :=
  { method := method, url := c.baseURL ++ path, path := path,
    headers := buildHeaders c, body := body }

/-- The HTTP response as read by `doRequest` (status code plus the
fully read body). -/
structure HttpResponse where
  statusCode : Nat
  body : String
  deriving DecidableEq, Repr

/-- The failure outcomes of `doRequest` that are reachable in this
model: an `*APIError`, or a "failed to unmarshal response" error on a
successful status with an undecodable body.  (Marshal and transport
failures are external I/O faults outside the model.) -/
inductive ClientError where
  | api (e : APIError) : ClientError
  | unmarshalResponse (body : String) : ClientError
  deriving DecidableEq, Repr

/-- The response-interpretation tail of `doRequest`: classify status
`≥ 400` through the envelope decode, otherwise decode the body into the
requested result type (which the caller passes zero-initialised; an
empty body leaves it untouched).  `result` is `none` when no result is
requested, else the zero value and the decoder for the result type. -/
def interpretResponse {α : Type} (resp : HttpResponse)
    (result : Option (α × (String → Option α))) : Except ClientError (Option α) :=
  if 400 ≤ resp.statusCode then
    match unmarshalGoError resp.body with
    | none => .error (.api ⟨resp.statusCode, resp.body, none⟩)
    | some apiErr => .error (.api ⟨resp.statusCode, "", some apiErr⟩)
  else
    match result with
    | none => .ok none
    | some (zero, dec) =>
      if 0 < resp.body.length then
        match dec resp.body with
        | none => .error (.unmarshalResponse resp.body)
        | some v => .ok (some v)
      else .ok (some zero)

/-- `Client.doRequest`: the request it builds and, given the transport's
response, the outcome it returns. -/
def doRequest {α : Type} (c : Client) (method path : String) (body : Option String)
    (resp : HttpResponse) (result : Option (α × (String → Option α))) :
    BuiltRequest × Except ClientError (Option α) :=
  (buildRequest c method path body, interpretResponse resp result)

/-! ### The exported payment operations

Each operation is a fixed (method, path) pair over `doRequest`; the
request DTO is passed through `json.Marshal` before `doRequest`, so it
is modelled here as the already-serialized body string, and the
response decoding is the generic result decode of `doRequest`. -/

/-- Request built by `Client.CreatePayment`. -/
def Client.CreatePayment (c : Client) (reqBody : String) : BuiltRequest :=
  buildRequest c "POST" "/payment" (some reqBody)

/-- Request built by `Client.GetPaymentStatus`. -/
def Client.GetPaymentStatus (c : Client) (paymentID : String) : BuiltRequest :=
  buildRequest c "GET" ("/payment/" ++ paymentID ++ "/status") none

/-- Request built by `Client.GetPaymentStatusByRequest`. -/
def Client.GetPaymentStatusByRequest (c : Client) (requestID : String) : BuiltRequest :=
  buildRequest c "GET" ("/payment/status/by/request/" ++ requestID) none

/-- Request built by `Client.CancelPayment`. -/
def Client.CancelPayment (c : Client) (paymentID : String) (reqBody : String) : BuiltRequest :=
  buildRequest c "POST" ("/payment/" ++ paymentID ++ "/cancel") (some reqBody)

/-- Request built by `Client.CancelPaymentByRequest`. -/
def Client.CancelPaymentByRequest (c : Client) (requestID : String) (reqBody : String) :
    BuiltRequest :=
  buildRequest c "POST" ("/payment/cancel/by/request/" ++ requestID) (some reqBody)

/-- Request built by `Client.RefundPayment`. -/
def Client.RefundPayment (c : Client) (paymentID : String) (reqBody : String) : BuiltRequest :=
  buildRequest c "POST" ("/payment/" ++ paymentID ++ "/refund") (some reqBody)

/-- Request built by `Client.RefundPaymentByRequest`. -/
def Client.RefundPaymentByRequest (c : Client) (requestID : String) (reqBody : String) :
    BuiltRequest :=
  buildRequest c "POST" ("/payment/refund/by/request/" ++ requestID) (some reqBody)

/-! ### Well-formedness and grammar predicates used by the claims -/

/-- The amended C3 well-formedness condition: the civil fields are a
valid calendar date and clock time, the year is four-digit
representable, and the zone offset is a whole number of minutes within
the `±hh:mm` range (as every real `time.Time` produced by this codec
is). -/
def WellFormedTime (t : GoTime) : Prop :=
  0 ≤ t.year ∧ t.year ≤ 9999 ∧ 1 ≤ t.month ∧ t.month ≤ 12 ∧ 1 ≤ t.day ∧
    t.day ≤ daysIn t.month t.year ∧ t.hour ≤ 23 ∧ t.minute ≤ 59 ∧ t.second ≤ 59 ∧
    t.nsec < 1000000000 ∧ t.offset % 60 = 0 ∧ -86340 ≤ t.offset ∧ t.offset ≤ 86340

instance (t : GoTime) : Decidable (WellFormedTime t) := by
  unfold WellFormedTime
  infer_instance

/-- The fallback grammar of the amended C8, stated from the claim's
wording: four-digit year, `-`, month, `-`, day, `T`, hour, `:`, minute,
`:`, second, optionally followed by a fractional-second part (`.` or
`,` and one or more digits), no offset, with the month, day (against
the month length), hour, minute and second in range. -/
def NaiveShape (cs : List Char) : Prop :=
  ∃ y1 y2 y3 y4 mo1 mo2 dd1 dd2 hh1 hh2 mi1 mi2 ss1 ss2 rest,
    cs = y1 :: y2 :: y3 :: y4 :: '-' :: mo1 :: mo2 :: '-' :: dd1 :: dd2 :: 'T' ::
      hh1 :: hh2 :: ':' :: mi1 :: mi2 :: ':' :: ss1 :: ss2 :: rest ∧
    isDigitCh y1 = true ∧ isDigitCh y2 = true ∧ isDigitCh y3 = true ∧ isDigitCh y4 = true ∧
    isDigitCh mo1 = true ∧ isDigitCh mo2 = true ∧ isDigitCh dd1 = true ∧ isDigitCh dd2 = true ∧
    isDigitCh hh1 = true ∧ isDigitCh hh2 = true ∧ isDigitCh mi1 = true ∧ isDigitCh mi2 = true ∧
    isDigitCh ss1 = true ∧ isDigitCh ss2 = true ∧
    (rest = [] ∨ ∃ sep ds, rest = sep :: ds ∧ (sep = '.' ∨ sep = ',') ∧
      ds ≠ [] ∧ ds.all isDigitCh = true) ∧
    1 ≤ dval mo1 * 10 + dval mo2 ∧ dval mo1 * 10 + dval mo2 ≤ 12 ∧
    1 ≤ dval dd1 * 10 + dval dd2 ∧
    dval dd1 * 10 + dval dd2 ≤
      daysIn (dval mo1 * 10 + dval mo2)
        ((((dval y1 * 10 + dval y2) * 10 + dval y3) * 10 + dval y4 : Nat) : Int) ∧
    dval hh1 * 10 + dval hh2 < 24 ∧ dval mi1 * 10 + dval mi2 < 60 ∧ dval ss1 * 10 + dval ss2 < 60

/-! ### Supporting lemmas -/

theorem digitChar_facts (d : Nat) (h : d < 10) :
    isDigitCh (Nat.digitChar d) = true ∧ dval (Nat.digitChar d) = d := by
  interval_cases d <;> exact ⟨rfl, rfl⟩

theorem utod_isDigit (u : Nat) : isDigitCh (utod u) = true :=
  (digitChar_facts (u % 10) (Nat.mod_lt _ (by omega))).1

theorem dval_utod (u : Nat) : dval (utod u) = u % 10 :=
  (digitChar_facts (u % 10) (Nat.mod_lt _ (by omega))).2

theorem utod_ne_of_not_digit {c : Char} (h : isDigitCh c = false) (u : Nat) : utod u ≠ c := by
  intro hc
  rw [← hc, utod_isDigit u] at h
  exact Bool.noConfusion h

theorem appendIntPad2_eq (n : Nat) (h : n < 100) :
    appendIntPad (n : Int) 2 = [utod (n / 10), utod n] := by
  have h0 : ¬ ((n : Int) < 0) := by omega
  simp [appendIntPad, h0, h]

theorem appendIntPad4_eq (n : Nat) (h : n < 10000) :
    appendIntPad (n : Int) 4 = [utod (n / 1000), utod (n / 100), utod (n / 10), utod n] := by
  have h0 : ¬ ((n : Int) < 0) := by omega
  simp [appendIntPad, h0, h]

theorem parseUint2_utod_val (n lo hi : Nat) (h : n < 100) (h1 : lo ≤ n) (h2 : n ≤ hi) :
    parseUint2 (utod (n / 10)) (utod n) lo hi = some n := by
  have e : dval (utod (n / 10)) * 10 + dval (utod n) = n := by
    rw [dval_utod, dval_utod]; omega
  simp [parseUint2, utod_isDigit, e, h1, h2]

theorem parseUint4_utod_val (n : Nat) (h : n < 10000) :
    parseUint4 (utod (n / 1000)) (utod (n / 100)) (utod (n / 10)) (utod n) = some n := by
  have e : ((dval (utod (n / 1000)) * 10 + dval (utod (n / 100))) * 10 +
      dval (utod (n / 10))) * 10 + dval (utod n) = n := by
    rw [dval_utod, dval_utod, dval_utod, dval_utod]; omega
  simp [parseUint4, utod_isDigit, e]

theorem daysIn_le_31 (m : Nat) (y : Int) : daysIn m y ≤ 31 := by
  unfold daysIn; split <;> [split <;> omega; split <;> omega]

/-- `strings.Trim(·, "\"")` of a quoted text whose first and last inner
characters are not quotes recovers the inner text. -/
theorem trimQuotes_wrap (xs : List Char)
    (h1 : ∀ c, xs.head? = some c → (c == '"') = false)
    (h2 : ∀ c, xs.getLast? = some c → (c == '"') = false) :
    trimQuotes ('"' :: xs ++ ['"']) = xs := by
  cases xs with
  | nil => rfl
  | cons y ys =>
    have hy : (y == '"') = false := h1 y rfl
    have hrev : ∃ z zs, (y :: ys).reverse = z :: zs := by
      cases hr : (y :: ys).reverse with
      | nil => exact absurd (congrArg List.length hr) (by simp)
      | cons z zs => exact ⟨z, zs, rfl⟩
    obtain ⟨z, zs, hz⟩ := hrev
    have hzlast : (y :: ys).getLast? = some z := by
      rw [← List.head?_reverse, hz]; rfl
    have hznq : (z == '"') = false := h2 z hzlast
    have step1 : List.dropWhile (fun x => x == '"') ('"' :: (y :: ys ++ ['"'])) =
        y :: (ys ++ ['"']) := by
      simp [List.dropWhile_cons, hy]
    have hrev2 : (y :: (ys ++ ['"'])).reverse = '"' :: (y :: ys).reverse := by
      simp
    have step2 : List.dropWhile (fun x => x == '"') ('"' :: (y :: ys).reverse) =
        (y :: ys).reverse := by
      simp [List.dropWhile_cons, hz, hznq]
    unfold trimQuotes
    rw [List.cons_append, step1, hrev2, step2, List.reverse_reverse]

theorem formatZone_zero : formatZone 0 = ['Z'] := rfl

theorem formatZone_nonzero (k : Int) (hk0 : k ≠ 0) (hkb : k.natAbs ≤ 1439) :
    formatZone (60 * k) =
      (if k < 0 then '-' else '+') :: utod (k.natAbs / 60 / 10) :: utod (k.natAbs / 60) ::
        ':' :: utod (k.natAbs % 60 / 10) :: utod (k.natAbs % 60) :: [] := by
  have hne : ¬ (60 * k = 0) := by omega
  have htdiv : (60 * k).tdiv 60 = k := Int.mul_tdiv_cancel_left _ (by norm_num)
  have hsgn : ((60 * k).tdiv 60 < 0) = (k < 0) := by rw [htdiv]
  unfold formatZone
  rw [if_neg hne, htdiv]
  show ((if k < 0 then '-' else '+') :: appendIntPad ((k.natAbs / 60 : Nat) : Int) 2 ++
      ':' :: appendIntPad ((k.natAbs % 60 : Nat) : Int) 2) = _
  rw [appendIntPad2_eq _ (by omega), appendIntPad2_eq _ (by omega)]
  simp only [List.cons_append, List.nil_append]

theorem format_eq (t : GoTime) (hy0 : 0 ≤ t.year) (hy1 : t.year ≤ 9999)
    (hm : t.month < 100) (hd : t.day < 100) (hh : t.hour < 100)
    (hmi : t.minute < 100) (hs : t.second < 100) :
    formatRFC3339 t =
      utod (t.year.toNat / 1000) :: utod (t.year.toNat / 100) :: utod (t.year.toNat / 10) ::
      utod t.year.toNat :: '-' :: utod (t.month / 10) :: utod t.month :: '-' ::
      utod (t.day / 10) :: utod t.day :: 'T' :: utod (t.hour / 10) :: utod t.hour :: ':' ::
      utod (t.minute / 10) :: utod t.minute :: ':' :: utod (t.second / 10) :: utod t.second ::
      formatZone t.offset := by
  have hyy : t.year = ((t.year.toNat : Nat) : Int) := (Int.toNat_of_nonneg hy0).symm
  have hyb : t.year.toNat < 10000 := by omega
  unfold formatRFC3339
  rw [hyy, appendIntPad4_eq _ hyb, appendIntPad2_eq _ hm, appendIntPad2_eq _ hd,
    appendIntPad2_eq _ hh, appendIntPad2_eq _ hmi, appendIntPad2_eq _ hs]
  simp only [List.cons_append, List.nil_append, Int.toNat_ofNat]

theorem scanFracDot_not_dot (cs : List Char) (h : cs.head? ≠ some '.') :
    scanFracDot cs = (0, cs) := by
  unfold scanFracDot
  split
  · rename_i c rest
    simp at h
  · rfl

theorem parse_format_strict (t : GoTime)
    (hy0 : 0 ≤ t.year) (hy1 : t.year ≤ 9999) (hm0 : 1 ≤ t.month) (hm1 : t.month ≤ 12)
    (hd0 : 1 ≤ t.day) (hd1 : t.day ≤ daysIn t.month t.year) (hh : t.hour ≤ 23)
    (hmi : t.minute ≤ 59) (hs : t.second ≤ 59) (hns : t.nsec = 0)
    (hoff : t.offset % 60 = 0) (ho0 : -86340 ≤ t.offset) (ho1 : t.offset ≤ 86340) :
    parseRFC3339strict (formatRFC3339 t) = some t := by
  obtain ⟨y, mo, d, hr, mi, s, ns, off⟩ := t
  dsimp only at hy0 hy1 hm0 hm1 hd0 hd1 hh hmi hs hns hoff ho0 ho1
  have hd31 : d ≤ 31 := le_trans hd1 (daysIn_le_31 mo y)
  rw [format_eq _ hy0 hy1 (by show mo < 100; omega) (by show d < 100; omega)
    (by show hr < 100; omega) (by show mi < 100; omega) (by show s < 100; omega)]
  dsimp only
  simp only [parseRFC3339strict]
  rw [parseUint4_utod_val _ (by omega), parseUint2_utod_val mo 1 12 (by omega) hm0 hm1,
    parseUint2_utod_val d 1 31 (by omega) hd0 hd31,
    parseUint2_utod_val hr 0 23 (by omega) (by omega) hh,
    parseUint2_utod_val mi 0 59 (by omega) (by omega) hmi,
    parseUint2_utod_val s 0 59 (by omega) (by omega) hs]
  dsimp only
  rw [Int.toNat_of_nonneg hy0, if_pos hd1]
  rcases eq_or_ne off 0 with ho | ho
  · rw [ho, formatZone_zero, scanFracDot_not_dot _ (by simp)]
    dsimp only
    simp only [scanZoneStrict]
    rw [hns]
  · obtain ⟨k, hk⟩ := Int.dvd_of_emod_eq_zero hoff
    rw [hk, formatZone_nonzero k (by omega) (by omega)]
    by_cases hneg : k < 0
    · rw [if_pos hneg, scanFracDot_not_dot _ (by simp)]
      dsimp only
      simp only [scanZoneStrict]
      rw [parseUint2_utod_val (k.natAbs / 60) 0 23 (by omega) (by omega) (by omega),
        parseUint2_utod_val (k.natAbs % 60) 0 59 (by omega) (by omega) (by omega)]
      dsimp only
      rw [if_neg (by decide : ¬ (('-' : Char) = '+')), if_pos trivial, hns]
      simp only [Option.some.injEq, GoTime.mk.injEq, eq_self_iff_true, true_and]
      omega
    · rw [if_neg hneg, scanFracDot_not_dot _ (by simp)]
      dsimp only
      simp only [scanZoneStrict]
      rw [parseUint2_utod_val (k.natAbs / 60) 0 23 (by omega) (by omega) (by omega),
        parseUint2_utod_val (k.natAbs % 60) 0 59 (by omega) (by omega) (by omega)]
      dsimp only
      rw [if_pos trivial, hns]
      simp only [Option.some.injEq, GoTime.mk.injEq, eq_self_iff_true, true_and]
      omega

theorem utod_beq_eq_false (u : Nat) {c : Char} (h : isDigitCh c = false) :
    (utod u == c) = false := by
  rw [beq_eq_false_iff_ne]
  exact utod_ne_of_not_digit h u

theorem getLast?_cons_of_ne_nil {α : Type} (a : α) (l : List α) (h : l ≠ []) :
    (a :: l).getLast? = l.getLast? := by
  cases l with
  | nil => exact absurd rfl h
  | cons b bs => rfl

theorem formatZone_ne_nil (off : Int) : formatZone off ≠ [] := by
  unfold formatZone
  split
  · simp
  · simp

theorem formatZone_getLast_ne_quote (off : Int) (hoff : off % 60 = 0)
    (ho0 : -86340 ≤ off) (ho1 : off ≤ 86340) :
    ∀ c, (formatZone off).getLast? = some c → (c == '"') = false := by
  intro c hc
  rcases eq_or_ne off 0 with ho | ho
  · rw [ho, formatZone_zero] at hc
    simp only [List.getLast?_singleton, Option.some.injEq] at hc
    rw [← hc]
    decide
  · obtain ⟨k, hk⟩ := Int.dvd_of_emod_eq_zero hoff
    rw [hk, formatZone_nonzero k (by omega) (by omega)] at hc
    simp only [List.getLast?_cons_cons, List.getLast?_singleton, Option.some.injEq] at hc
    rw [← hc]
    exact utod_beq_eq_false _ (by decide)

theorem dval_le_nine {c : Char} (h : isDigitCh c = true) : dval c ≤ 9 := by
  unfold isDigitCh at h
  simp only [Bool.and_eq_true, decide_eq_true_eq] at h
  unfold dval
  omega

theorem parseUint2_digits (a b : Char) (ha : isDigitCh a = true) (hb : isDigitCh b = true) :
    parseUint2 a b 0 99 = some (dval a * 10 + dval b) := by
  have h9a := dval_le_nine ha
  have h9b := dval_le_nine hb
  unfold parseUint2
  rw [ha, hb]
  simp only [Bool.and_self, if_true]
  rw [if_pos (by simp only [Bool.and_eq_true, decide_eq_true_eq]; omega)]

theorem parseUint4_digits (a b c d : Char) (ha : isDigitCh a = true) (hb : isDigitCh b = true)
    (hc : isDigitCh c = true) (hd : isDigitCh d = true) :
    parseUint4 a b c d = some (((dval a * 10 + dval b) * 10 + dval c) * 10 + dval d) := by
  unfold parseUint4
  rw [ha, hb, hc, hd]
  rfl

theorem parseUint2_some_inv {a b : Char} {lo hi n : Nat} (h : parseUint2 a b lo hi = some n) :
    isDigitCh a = true ∧ isDigitCh b = true ∧ n = dval a * 10 + dval b ∧ lo ≤ n ∧ n ≤ hi := by
  unfold parseUint2 at h
  split at h
  · split at h
    · rename_i hab hrange
      cases h
      simp only [Bool.and_eq_true, decide_eq_true_eq] at hab hrange
      exact ⟨hab.1, hab.2, rfl, hrange.1, hrange.2⟩
    · cases h
  · cases h

theorem parseUint4_some_inv {a b c d : Char} {n : Nat} (h : parseUint4 a b c d = some n) :
    isDigitCh a = true ∧ isDigitCh b = true ∧ isDigitCh c = true ∧ isDigitCh d = true ∧
      n = ((dval a * 10 + dval b) * 10 + dval c) * 10 + dval d := by
  unfold parseUint4 at h
  split at h
  · rename_i habcd
    cases h
    simp only [Bool.and_eq_true] at habcd
    exact ⟨habcd.1.1.1, habcd.1.1.2, habcd.1.2, habcd.2, rfl⟩
  · cases h

theorem scanFracGeneric_digits (sep : Char) (ds : List Char) (hsep : sep = '.' ∨ sep = ',')
    (hne : ds ≠ []) (hds : ds.all isDigitCh = true) :
    scanFracGeneric (sep :: ds) = (nsecOfFrac ds, []) := by
  cases ds with
  | nil => exact absurd rfl hne
  | cons c cs' =>
    simp only [List.all_cons, Bool.and_eq_true] at hds
    unfold scanFracGeneric
    dsimp only
    rw [if_pos ⟨hsep, hds.1⟩]
    have htake : (c :: cs').takeWhile isDigitCh = c :: cs' :=
      List.takeWhile_eq_self_iff.mpr (by
        intro x hx
        rcases List.mem_cons.mp hx with hx | hx
        · rw [hx]; exact hds.1
        · exact List.all_eq_true.mp hds.2 x hx)
    have hdrop : (c :: cs').dropWhile isDigitCh = [] :=
      List.dropWhile_eq_nil_iff.mpr (by
        intro x hx
        rcases List.mem_cons.mp hx with hx | hx
        · rw [hx]; exact hds.1
        · exact List.all_eq_true.mp hds.2 x hx)
    rw [htake, hdrop]

theorem scanFracGeneric_inv (rest : List Char) (ns : Nat)
    (h : scanFracGeneric rest = (ns, [])) :
    rest = [] ∨ ∃ sep ds, rest = sep :: ds ∧ (sep = '.' ∨ sep = ',') ∧
      ds ≠ [] ∧ ds.all isDigitCh = true := by
  unfold scanFracGeneric at h
  split at h
  · rename_i sep c rest'
    split at h
    · rename_i hcond
      right
      have hdrop : (c :: rest').dropWhile isDigitCh = [] := congrArg Prod.snd h
      refine ⟨sep, c :: rest', rfl, hcond.1, by simp, ?_⟩
      simp only [List.all_eq_true]
      exact List.dropWhile_eq_nil_iff.mp hdrop
    · exact absurd (congrArg Prod.snd h) (by simp)
  · left
    exact congrArg Prod.snd h

theorem validDateClock_true_inv {year : Int} {month day hour minute second : Nat}
    (h : validDateClock year month day hour minute second = true) :
    1 ≤ month ∧ month ≤ 12 ∧ 1 ≤ day ∧ day ≤ daysIn month year ∧
      hour < 24 ∧ minute < 60 ∧ second < 60 := by
  unfold validDateClock at h
  simp only [Bool.and_eq_true, decide_eq_true_eq] at h
  exact ⟨h.1.1.1.1.1.1, h.1.1.1.1.1.2, h.1.1.1.1.2, h.1.1.1.2, h.1.1.2, h.1.2, h.2⟩

theorem validDateClock_of (year : Int) (month day hour minute second : Nat)
    (h1 : 1 ≤ month) (h2 : month ≤ 12) (h3 : 1 ≤ day) (h4 : day ≤ daysIn month year)
    (h5 : hour < 24) (h6 : minute < 60) (h7 : second < 60) :
    validDateClock year month day hour minute second = true := by
  unfold validDateClock
  simp only [Bool.and_eq_true, decide_eq_true_eq]
  exact ⟨⟨⟨⟨⟨⟨h1, h2⟩, h3⟩, h4⟩, h5⟩, h6⟩, h7⟩

/-- Acceptance of the fallback parser is exactly the `NaiveShape`
grammar. -/
theorem parseNaive_iff_naiveShape (cs : List Char) :
    (∃ t, parseNaive cs = some t) ↔ NaiveShape cs := by
  constructor
  · rintro ⟨t, h⟩
    unfold parseNaive at h
    split at h
    case _ y1 y2 y3 y4 mo1 mo2 dd1 dd2 hh1 hh2 mi1 mi2 ss1 ss2 rest =>
      split at h
      case _ year month day hour minute second h4 hmo hdd hhh hmi hss =>
        rcases hscan : scanFracGeneric rest with ⟨ns, rest'⟩
        rw [hscan] at h
        dsimp only at h
        split at h
        · rename_i hrest
          split at h
          · rename_i hvalid
            obtain ⟨hy1, hy2, hy3, hy4, hyv⟩ := parseUint4_some_inv h4
            obtain ⟨hmo1, hmo2, hmov, -, -⟩ := parseUint2_some_inv hmo
            obtain ⟨hdd1, hdd2, hddv, -, -⟩ := parseUint2_some_inv hdd
            obtain ⟨hhh1, hhh2, hhhv, -, -⟩ := parseUint2_some_inv hhh
            obtain ⟨hmi1, hmi2, hmiv, -, -⟩ := parseUint2_some_inv hmi
            obtain ⟨hss1, hss2, hssv, -, -⟩ := parseUint2_some_inv hss
            obtain ⟨hr1, hr2, hr3, hr4, hr5, hr6, hr7⟩ := validDateClock_true_inv hvalid
            subst hrest
            refine ⟨y1, y2, y3, y4, mo1, mo2, dd1, dd2, hh1, hh2, mi1, mi2, ss1, ss2, rest,
              rfl, hy1, hy2, hy3, hy4, hmo1, hmo2, hdd1, hdd2, hhh1, hhh2, hmi1, hmi2,
              hss1, hss2, scanFracGeneric_inv rest ns hscan, ?_, ?_, ?_, ?_, ?_, ?_, ?_⟩ <;>
              [rw [← hmov]; rw [← hmov]; rw [← hddv]; rw [← hddv, ← hmov, ← hyv];
                rw [← hhhv]; rw [← hmiv]; rw [← hssv]] <;> assumption
          · cases h
        · cases h
      case _ => cases h
    case _ => cases h
  · rintro ⟨y1, y2, y3, y4, mo1, mo2, dd1, dd2, hh1, hh2, mi1, mi2, ss1, ss2, rest,
      hcs, hy1, hy2, hy3, hy4, hmo1, hmo2, hdd1, hdd2, hhh1, hhh2, hmi1, hmi2,
      hss1, hss2, hrest, hr1, hr2, hr3, hr4, hr5, hr6, hr7⟩
    subst hcs
    simp only [parseNaive]
    rw [parseUint4_digits _ _ _ _ hy1 hy2 hy3 hy4, parseUint2_digits _ _ hmo1 hmo2,
      parseUint2_digits _ _ hdd1 hdd2, parseUint2_digits _ _ hhh1 hhh2,
      parseUint2_digits _ _ hmi1 hmi2, parseUint2_digits _ _ hss1 hss2]
    dsimp only
    rcases hrest with hrest | ⟨sep, ds, hrest, hsep, hdsne, hds⟩
    · subst hrest
      rw [show scanFracGeneric [] = (0, []) from rfl]
      dsimp only
      rw [if_pos rfl, if_pos (validDateClock_of _ _ _ _ _ _ hr1 hr2 hr3 hr4 hr5 hr6 hr7)]
      exact ⟨_, rfl⟩
    · subst hrest
      rw [scanFracGeneric_digits sep ds hsep hdsne hds]
      dsimp only
      rw [if_pos rfl, if_pos (validDateClock_of _ _ _ _ _ _ hr1 hr2 hr3 hr4 hr5 hr6 hr7)]
      exact ⟨_, rfl⟩

/-! ## Claims -/

/-- C1: for every `APIError`, when a parsed envelope is present the
predicates classify strictly by envelope code (not-found ⇔ code ∈
{PaymentNotFound, OrderNotFound, TransferNotFound, TokenNotFound},
validation ⇔ ValidationError, authentication ⇔ BadCredentials),
regardless of the status code; when no envelope is present they
classify by status code (404 / 400 / 401 respectively). -/
theorem claim1_classification_predicates (e : APIError) :
    (∀ env, e.Err = some env →
      ((e.IsNotFound = true ↔
          (env.error.code = ErrorCodePaymentNotFound ∨
           env.error.code = ErrorCodeOrderNotFound ∨
           env.error.code = ErrorCodeTransferNotFound ∨
           env.error.code = ErrorCodeTokenNotFound)) ∧
       (e.IsValidationError = true ↔ env.error.code = ErrorCodeValidationError) ∧
       (e.IsAuthenticationError = true ↔ env.error.code = ErrorCodeBadCredentials))) ∧
    (e.Err = none →
      ((e.IsNotFound = true ↔ e.StatusCode = 404) ∧
       (e.IsValidationError = true ↔ e.StatusCode = 400) ∧
       (e.IsAuthenticationError = true ↔ e.StatusCode = 401))) := by
  constructor
  · intro env henv
    simp [APIError.IsNotFound, APIError.IsValidationError, APIError.IsAuthenticationError, henv]
    tauto
  · intro hnone
    simp [APIError.IsNotFound, APIError.IsValidationError, APIError.IsAuthenticationError, hnone]

/-- Witness for C1 at concrete errors: a PaymentNotFound envelope
classifies as not-found even at status 200, and an envelope-less
status-404 error classifies as not-found. -/
theorem claim1_witness :
    APIError.IsNotFound ⟨200, "", some ⟨⟨12, "PAYMENT_NOT_FOUND"⟩⟩⟩ = true ∧
    APIError.IsNotFound ⟨404, "gone", none⟩ = true :=
  ⟨((claim1_classification_predicates ⟨200, "", some ⟨⟨12, "PAYMENT_NOT_FOUND"⟩⟩⟩).1
      ⟨⟨12, "PAYMENT_NOT_FOUND"⟩⟩ rfl).1.mpr (by decide),
   ((claim1_classification_predicates ⟨404, "gone", none⟩).2 rfl).1.mpr (by decide)⟩

/-- C2: every response with status ≥ 400 makes the call fail with an
`APIError`; when the body decodes as an error envelope the `APIError`
carries the status code and the parsed envelope, otherwise it carries
the status code and the raw body text verbatim with no envelope. -/
theorem claim2_error_status_classified {α : Type} (c : Client) (method path : String)
    (body : Option String) (resp : HttpResponse)
    (result : Option (α × (String → Option α))) (h : 400 ≤ resp.statusCode) :
    (∀ env, unmarshalGoError resp.body = some env →
      (doRequest c method path body resp result).2 =
        .error (.api ⟨resp.statusCode, "", some env⟩)) ∧
    (unmarshalGoError resp.body = none →
      (doRequest c method path body resp result).2 =
        .error (.api ⟨resp.statusCode, resp.body, none⟩)) := by
  constructor
  · intro env henv
    simp [doRequest, interpretResponse, h, henv]
  · intro hnone
    simp [doRequest, interpretResponse, h, hnone]

/-- Witness for C2: a status-400 response with the gateway's
VALIDATION_ERROR body yields the parsed envelope, and a status-500
response with a non-JSON body yields the raw text with no envelope. -/
theorem claim2_witness :
    (doRequest ⟨"https://api.qi.iq/api/v1", "t", "", "", ""⟩ "POST" "/payment" (some "\x7b\x7d")
        ⟨400, "\x7b\"error\":\x7b\"code\":21,\"message\":\"VALIDATION_ERROR\"\x7d\x7d"⟩
        (none : Option (Nat × (String → Option Nat)))).2 =
      .error (.api ⟨400, "", some ⟨⟨21, "VALIDATION_ERROR"⟩⟩⟩) ∧
    (doRequest ⟨"https://api.qi.iq/api/v1", "t", "", "", ""⟩ "GET" "/payment/p/status" none
        ⟨500, "oops"⟩ (none : Option (Nat × (String → Option Nat)))).2 =
      .error (.api ⟨500, "oops", none⟩) :=
  ⟨(claim2_error_status_classified ⟨"https://api.qi.iq/api/v1", "t", "", "", ""⟩ "POST"
      "/payment" (some "\x7b\x7d") ⟨400, "\x7b\"error\":\x7b\"code\":21,\"message\":\"VALIDATION_ERROR\"\x7d\x7d"⟩
      (none : Option (Nat × (String → Option Nat))) (by decide)).1
      ⟨⟨21, "VALIDATION_ERROR"⟩⟩ (by decide),
   (claim2_error_status_classified ⟨"https://api.qi.iq/api/v1", "t", "", "", ""⟩ "GET"
      "/payment/p/status" none ⟨500, "oops"⟩
      (none : Option (Nat × (String → Option Nat))) (by decide)).2 (by decide)⟩

/-- C3 (amended): for every instant with zero sub-second component
whose representation is well-formed (valid calendar fields, four-digit
year, whole-minute offset within `±23:59`), unmarshalling the marshalled
text yields the same instant back. -/
theorem claim3_roundtrip_amended (t : GoTime) (hwf : WellFormedTime t) (hns : t.nsec = 0) :
    ∃ t', unmarshalTimeJSON (goTimeMarshalJSON t) = .ok t' ∧ instantEq t' t := by
  obtain ⟨hy0, hy1, hm0, hm1, hd0, hd1, hh, hmi, hs, hnb, hoff, ho0, ho1⟩ := hwf
  by_cases hz : t.isZero = true
  · refine ⟨zeroGoTime, ?_, ?_⟩
    · rw [goTimeMarshalJSON, if_pos hz]
      rfl
    · have hz' := hz
      unfold GoTime.isZero at hz'
      simp only [Bool.and_eq_true, beq_iff_eq] at hz'
      exact ⟨hz'.1.symm, by rw [hns]; rfl⟩
  · have hd31 : t.day ≤ 31 := le_trans hd1 (daysIn_le_31 t.month t.year)
    have hps := parse_format_strict t hy0 hy1 hm0 hm1 hd0 hd1 hh hmi hs hns hoff ho0 ho1
    have hfe := format_eq t hy0 hy1 (by omega) (by omega) (by omega) (by omega) (by omega)
    have hhead : ∀ c, (formatRFC3339 t).head? = some c → (c == '"') = false := by
      rw [hfe]
      intro c hc
      simp only [List.head?_cons, Option.some.injEq] at hc
      rw [← hc]
      exact utod_beq_eq_false _ (by decide)
    have hlast : ∀ c, (formatRFC3339 t).getLast? = some c → (c == '"') = false := by
      rw [hfe]
      intro c hc
      rw [getLast?_cons_of_ne_nil _ _ (by simp), getLast?_cons_of_ne_nil _ _ (by simp),
        getLast?_cons_of_ne_nil _ _ (by simp), getLast?_cons_of_ne_nil _ _ (by simp),
        getLast?_cons_of_ne_nil _ _ (by simp), getLast?_cons_of_ne_nil _ _ (by simp),
        getLast?_cons_of_ne_nil _ _ (by simp), getLast?_cons_of_ne_nil _ _ (by simp),
        getLast?_cons_of_ne_nil _ _ (by simp), getLast?_cons_of_ne_nil _ _ (by simp),
        getLast?_cons_of_ne_nil _ _ (by simp), getLast?_cons_of_ne_nil _ _ (by simp),
        getLast?_cons_of_ne_nil _ _ (by simp), getLast?_cons_of_ne_nil _ _ (by simp),
        getLast?_cons_of_ne_nil _ _ (by simp), getLast?_cons_of_ne_nil _ _ (by simp),
        getLast?_cons_of_ne_nil _ _ (by simp), getLast?_cons_of_ne_nil _ _ (by simp),
        getLast?_cons_of_ne_nil _ _ (formatZone_ne_nil t.offset)] at hc
      exact formatZone_getLast_ne_quote t.offset hoff ho0 ho1 c hc
    have hnotnull : ¬ (formatRFC3339 t = ['n', 'u', 'l', 'l'] ∨ formatRFC3339 t = []) := by
      rw [hfe]
      rintro (habs | habs)
      · have hh' := congrArg List.head? habs
        simp only [List.head?_cons, Option.some.injEq] at hh'
        exact utod_ne_of_not_digit (by decide) _ hh'
      · simp at habs
    refine ⟨t, ?_, ⟨rfl, rfl⟩⟩
    rw [goTimeMarshalJSON, if_neg hz]
    unfold unmarshalTimeJSON
    have hdata : (String.mk ('"' :: formatRFC3339 t ++ ['"'])).toList =
        '"' :: formatRFC3339 t ++ ['"'] := rfl
    rw [hdata, trimQuotes_wrap _ hhead hlast, if_neg hnotnull]
    unfold parseRFC3339go
    rw [hps]
    rfl

/-- Witness for C3 (amended) at the concrete instant
2026-01-20T11:57:31+01:00. -/
theorem claim3_witness :
    ∃ t', unmarshalTimeJSON (goTimeMarshalJSON ⟨2026, 1, 20, 11, 57, 31, 0, 3600⟩) = .ok t' ∧
      instantEq t' ⟨2026, 1, 20, 11, 57, 31, 0, 3600⟩ :=
  claim3_roundtrip_amended ⟨2026, 1, 20, 11, 57, 31, 0, 3600⟩ (by decide) rfl

/-- Counterexample to C3 as stated: the well-formed instant
2026-01-20T11:57:31.5Z (nsec = 500000000) marshals without its
fractional second, so parsing the canonical output yields a different
instant (off by half a second). -/
theorem claim3_counterexample :
    WellFormedTime ⟨2026, 1, 20, 11, 57, 31, 500000000, 0⟩ ∧
    goTimeMarshalJSON ⟨2026, 1, 20, 11, 57, 31, 500000000, 0⟩ = "\"2026-01-20T11:57:31Z\"" ∧
    unmarshalTimeJSON (goTimeMarshalJSON ⟨2026, 1, 20, 11, 57, 31, 500000000, 0⟩) =
      .ok ⟨2026, 1, 20, 11, 57, 31, 0, 0⟩ ∧
    ¬ instantEq ⟨2026, 1, 20, 11, 57, 31, 0, 0⟩ ⟨2026, 1, 20, 11, 57, 31, 500000000, 0⟩ := by
  decide

/-- C4: the naive text `2026-01-20T11:57:31` is rejected by the
timezone-qualified format, accepted by the fallback, and yields exactly
the instant of `2026-01-20T11:57:31Z` (interpreted as UTC). -/
theorem claim4_fallback_utc_instant :
    unmarshalTimeJSON "\"2026-01-20T11:57:31\"" = .ok ⟨2026, 1, 20, 11, 57, 31, 0, 0⟩ ∧
    unmarshalTimeJSON "\"2026-01-20T11:57:31Z\"" = .ok ⟨2026, 1, 20, 11, 57, 31, 0, 0⟩ ∧
    parseRFC3339go "2026-01-20T11:57:31".toList = none ∧
    parseNaive "2026-01-20T11:57:31".toList = some ⟨2026, 1, 20, 11, 57, 31, 0, 0⟩ := by
  decide

/-- C5: parsing `null` and the empty input both yield the zero
timestamp without error, and the zero timestamp formats to JSON `null`
(not an empty string or an epoch timestamp). -/
theorem claim5_null_timestamp :
    unmarshalTimeJSON "null" = .ok zeroGoTime ∧
    unmarshalTimeJSON "" = .ok zeroGoTime ∧
    goTimeMarshalJSON zeroGoTime = "null" := by
  decide

/-- C6: every request built by the pipeline carries the configured
terminal id in `X-Terminal-Id`; the basic-auth `Authorization` header
is present iff both username and password are non-empty; the
`X-Signature` header is present iff the signature is non-empty; and
both may be present simultaneously. -/
theorem claim6_header_contract (c : Client) (method path : String) (body : Option String) :
    headerGet (buildRequest c method path body).headers "X-Terminal-Id" = some c.terminalID ∧
    ((headerGet (buildRequest c method path body).headers "Authorization").isSome ↔
      (c.username ≠ "" ∧ c.password ≠ "")) ∧
    ((headerGet (buildRequest c method path body).headers "X-Signature").isSome ↔
      c.signature ≠ "") := by
  by_cases hu : c.username = "" <;> by_cases hp : c.password = "" <;>
    by_cases hs : c.signature = "" <;>
    simp [buildRequest, buildHeaders, headerGet, hu, hp, hs, List.find?]

/-- Witness for C6 at a concrete client with both authentication modes
configured: both headers are attached simultaneously. -/
theorem claim6_witness :
    (headerGet (buildRequest ⟨"u", "term-1", "alice", "pw", "sig-1"⟩ "POST" "/payment"
        (some "\x7b\x7d")).headers "Authorization").isSome = true ∧
    (headerGet (buildRequest ⟨"u", "term-1", "alice", "pw", "sig-1"⟩ "POST" "/payment"
        (some "\x7b\x7d")).headers "X-Signature").isSome = true ∧
    headerGet (buildRequest ⟨"u", "term-1", "alice", "pw", "sig-1"⟩ "POST" "/payment"
        (some "\x7b\x7d")).headers "X-Terminal-Id" = some "term-1" := by
  refine ⟨?_, ?_, ?_⟩
  · exact (decide_eq_true_eq.mp rfl : (headerGet (buildRequest ⟨"u", "term-1", "alice", "pw",
      "sig-1"⟩ "POST" "/payment" (some "\x7b\x7d")).headers "Authorization").isSome = true)
  · exact decide_eq_true_eq.mp rfl
  · exact (claim6_header_contract ⟨"u", "term-1", "alice", "pw", "sig-1"⟩ "POST" "/payment"
      (some "\x7b\x7d")).1

/-- C7: a response with status < 400, a requested result type and an
empty body yields the zero-value result with no error, and the decoder
is never consulted (the outcome is the same for any decoder). -/
theorem claim7_empty_success_body {α : Type} (c : Client) (method path : String)
    (body : Option String) (resp : HttpResponse) (zero : α) (dec dec' : String → Option α)
    (hstatus : resp.statusCode < 400) (hbody : resp.body = "") :
    (doRequest c method path body resp (some (zero, dec))).2 = .ok (some zero) ∧
    (doRequest c method path body resp (some (zero, dec))).2 =
      (doRequest c method path body resp (some (zero, dec'))).2 := by
  have h400 : ¬ 400 ≤ resp.statusCode := by omega
  constructor <;> simp [doRequest, interpretResponse, h400, hbody]

/-- Witness for C7: a 200 response with an empty body yields the zero
value `0` even with a decoder that always fails. -/
theorem claim7_witness :
    (doRequest ⟨"u", "t", "", "", ""⟩ "GET" "/payment/p/status" none ⟨200, ""⟩
        (some ((0 : Nat), fun _ => none))).2 = .ok (some 0) :=
  (claim7_empty_success_body ⟨"u", "t", "", "", ""⟩ "GET" "/payment/p/status" none ⟨200, ""⟩
    (0 : Nat) (fun _ => none) (fun _ => some 7) (by decide) rfl).1

/-- C8 (amended): the codec tries the timezone-qualified format first
(its result wins whenever it accepts), the fallback naive format
accepts exactly the pattern four-digit year, `-`, month, `-`, day,
`T`, hour, `:`, minute, `:`, second with an optional fractional-second
part (`.` or `,` and digits) and no offset, and for every input that
neither format accepts the codec fails with a ParseError carrying the
(quote-trimmed) original text. -/
theorem claim8_order_and_fallback_amended :
    (∀ (data : String) (t : GoTime),
        parseRFC3339go (trimQuotes data.toList) = some t → unmarshalTimeJSON data = .ok t) ∧
    (∀ cs : List Char, (∃ t, parseNaive cs = some t) ↔ NaiveShape cs) ∧
    (∀ data : String,
        trimQuotes data.toList ≠ ['n', 'u', 'l', 'l'] → trimQuotes data.toList ≠ [] →
        parseRFC3339go (trimQuotes data.toList) = none →
        parseNaive (trimQuotes data.toList) = none →
        unmarshalTimeJSON data = .error ⟨naiveLayout, String.mk (trimQuotes data.toList)⟩) := by
  refine ⟨?_, parseNaive_iff_naiveShape, ?_⟩
  · intro data t h
    have hne : ¬ (trimQuotes data.toList = ['n', 'u', 'l', 'l'] ∨
        trimQuotes data.toList = []) := by
      rintro (habs | habs) <;> rw [habs] at h
      · rw [show parseRFC3339go ['n', 'u', 'l', 'l'] = none from by decide] at h
        cases h
      · rw [show parseRFC3339go [] = none from by decide] at h
        cases h
    simp only [unmarshalTimeJSON]
    rw [if_neg hne, h]
  · intro data h1 h2 h3 h4
    simp only [unmarshalTimeJSON]
    rw [if_neg (not_or.mpr ⟨h1, h2⟩), h3, h4]

/-- Witness for C8 (amended) at concrete inputs: the RFC3339 text is
taken by the first tier, the fractional naive text matches the amended
grammar, and an unparseable text produces the ParseError carrying it. -/
theorem claim8_witness :
    unmarshalTimeJSON "\"2026-01-20T11:57:31Z\"" = .ok ⟨2026, 1, 20, 11, 57, 31, 0, 0⟩ ∧
    NaiveShape "2026-01-20T11:57:31.5".toList ∧
    unmarshalTimeJSON "\"not-a-time\"" =
      .error ⟨naiveLayout, String.mk (trimQuotes "\"not-a-time\"".toList)⟩ :=
  ⟨claim8_order_and_fallback_amended.1 "\"2026-01-20T11:57:31Z\""
      ⟨2026, 1, 20, 11, 57, 31, 0, 0⟩ (by decide),
   (claim8_order_and_fallback_amended.2.1 "2026-01-20T11:57:31.5".toList).mp
      ⟨⟨2026, 1, 20, 11, 57, 31, 500000000, 0⟩, by decide⟩,
   claim8_order_and_fallback_amended.2.2 "\"not-a-time\"" (by decide) (by decide)
      (by decide) (by decide)⟩

/-- Counterexample to C8 as stated: `2026-01-20T11:57:31.5` matches
neither format of the original claim (it has fractional seconds and no
offset), yet the code accepts it through the fallback parse — the
fallback is not limited to the no-fractional-seconds pattern. -/
theorem claim8_counterexample :
    parseRFC3339go "2026-01-20T11:57:31.5".toList = none ∧
    parseNaive "2026-01-20T11:57:31.5".toList =
      some ⟨2026, 1, 20, 11, 57, 31, 500000000, 0⟩ ∧
    unmarshalTimeJSON "\"2026-01-20T11:57:31.5\"" =
      .ok ⟨2026, 1, 20, 11, 57, 31, 500000000, 0⟩ := by
  decide

/-- C9: each exported payment operation issues its fixed (method, path)
pair, with the caller-supplied identifier interpolated verbatim into
the fixed template. -/
theorem claim9_operation_routes (c : Client) (reqBody cancelBody refundBody : String)
    (paymentID requestID : String) :
    (c.CreatePayment reqBody).method = "POST" ∧
    (c.CreatePayment reqBody).path = "/payment" ∧
    (c.GetPaymentStatus paymentID).method = "GET" ∧
    (c.GetPaymentStatus paymentID).path = "/payment/" ++ paymentID ++ "/status" ∧
    (c.GetPaymentStatusByRequest requestID).method = "GET" ∧
    (c.GetPaymentStatusByRequest requestID).path = "/payment/status/by/request/" ++ requestID ∧
    (c.CancelPayment paymentID cancelBody).method = "POST" ∧
    (c.CancelPayment paymentID cancelBody).path = "/payment/" ++ paymentID ++ "/cancel" ∧
    (c.CancelPaymentByRequest requestID cancelBody).method = "POST" ∧
    (c.CancelPaymentByRequest requestID cancelBody).path =
      "/payment/cancel/by/request/" ++ requestID ∧
    (c.RefundPayment paymentID refundBody).method = "POST" ∧
    (c.RefundPayment paymentID refundBody).path = "/payment/" ++ paymentID ++ "/refund" ∧
    (c.RefundPaymentByRequest requestID refundBody).method = "POST" ∧
    (c.RefundPaymentByRequest requestID refundBody).path =
      "/payment/refund/by/request/" ++ requestID := by
  refine ⟨rfl, rfl, rfl, rfl, rfl, rfl, rfl, rfl, rfl, rfl, rfl, rfl, rfl, rfl⟩

/-- C10 (amended): for every error response (status ≥ 400) whose body
decodes through `json.Unmarshal` into the envelope struct while
yielding the zero envelope — a JSON object without a usable `error`
member, or JSON `null` — the `APIError` carries a non-nil envelope with
zero code and message, and the status-code fallback of the
classification predicates never applies, whatever the status code. -/
theorem claim10_zero_envelope_blocks_fallback {α : Type} (c : Client) (method path : String)
    (body : Option String) (status : Nat) (respBody : String)
    (result : Option (α × (String → Option α)))
    (h : 400 ≤ status) (henv : unmarshalGoError respBody = some ⟨⟨0, ""⟩⟩) :
    (doRequest c method path body ⟨status, respBody⟩ result).2 =
      .error (.api ⟨status, "", some ⟨⟨0, ""⟩⟩⟩) ∧
    APIError.IsNotFound ⟨status, "", some ⟨⟨0, ""⟩⟩⟩ = false ∧
    APIError.IsValidationError ⟨status, "", some ⟨⟨0, ""⟩⟩⟩ = false ∧
    APIError.IsAuthenticationError ⟨status, "", some ⟨⟨0, ""⟩⟩⟩ = false := by
  refine ⟨?_, by simp [APIError.IsNotFound]; decide, by simp [APIError.IsValidationError]; decide,
    by simp [APIError.IsAuthenticationError]; decide⟩
  simp [doRequest, interpretResponse, h, henv]

/-- Witness for C10 (amended): a status-404 response with body `{}`
carries the zero envelope and does not classify as not-found. -/
theorem claim10_witness :
    (doRequest ⟨"u", "t", "", "", ""⟩ "GET" "/payment/p/status" none ⟨404, "\x7b\x7d"⟩
        (none : Option (Nat × (String → Option Nat)))).2 =
      .error (.api ⟨404, "", some ⟨⟨0, ""⟩⟩⟩) ∧
    APIError.IsNotFound ⟨404, "", some ⟨⟨0, ""⟩⟩⟩ = false :=
  ⟨(claim10_zero_envelope_blocks_fallback ⟨"u", "t", "", "", ""⟩ "GET" "/payment/p/status"
      none 404 "\x7b\x7d" (none : Option (Nat × (String → Option Nat))) (by decide) (by decide)).1,
   (claim10_zero_envelope_blocks_fallback ⟨"u", "t", "", "", ""⟩ "GET" "/payment/p/status"
      none 404 "\x7b\x7d" (none : Option (Nat × (String → Option Nat))) (by decide) (by decide)).2.1⟩

/-- Counterexample to C10 as stated: the body `[1]` is syntactically
valid JSON and not an error envelope, yet `json.Unmarshal` into the
envelope struct fails on it, so the `APIError` carries **no** envelope
(raw body text instead) and the status-code fallback **does** apply: a
status-404 response with body `[1]` classifies as not-found. -/
theorem claim10_counterexample :
    unmarshalGoError "[1]" = none ∧
    (doRequest ⟨"u", "t", "", "", ""⟩ "GET" "/payment/p/status" none ⟨404, "[1]"⟩
        (none : Option (Nat × (String → Option Nat)))).2 =
      .error (.api ⟨404, "[1]", none⟩) ∧
    APIError.IsNotFound ⟨404, "[1]", none⟩ = true := by
  decide

end Qi
